import Mathlib

/-!
# Verification of the GCE VM Controller service (`app/main.py`)

A shallow embedding of the FastAPI service in `app/main.py`.  HTTP handlers
become pure Lean functions; the remote services (the compute-control API and
the ComfyUI generation service) are passed in as explicit arguments describing
their replies, so each handler is a function of its inputs, its configuration,
and the remote behaviour.  Every handler additionally returns the number of
outbound network operations it attempted (a token fetch or an HTTP request
each count as one), so that "no outbound call is made" claims are expressible.

Machine conventions:
* Python `Optional[str]` becomes `Option String`; Python truthiness of a
  string (`if s:`) is `s ≠ ""`, and of an optional string it also rejects
  `none`.
* A raised `HTTPException(status_code, detail)` becomes `Except.error` of an
  `HErr`; a handler that returns normally is `Except.ok`.
* JSON objects are association lists from string keys to string values where
  the code only reads string fields; the nested ComfyUI history shape gets
  its own structures below.
* Wall-clock time in the `/comfy/result` poll loop is an explicit rational
  clock that starts at `0` and advances by exactly `poll_interval` at each
  `time.sleep(poll_interval)`.
-/

/-- The `detail` payload of a FastAPI `HTTPException`: either a plain string
or a JSON object (an association list), as produced by `_raise_http`. -/
inductive Detail where
  | str (s : String)
  | obj (j : List (String × String))
deriving DecidableEq

/-- A raised `HTTPException`: status code plus detail payload. -/
structure HErr where
  status : Nat
  detail : Detail
deriving DecidableEq

/-- Python truthiness of an `Optional[str]`: `None` and `""` are falsy. -/
def optTruthy : Option String → Bool
  | none => false
  | some s => s ≠ ""

/-- `check_key` (main.py:60-62): when an API key is configured (truthy) and
the presented `x-api-key` header differs from it, raise 401. -/
def check_key (apiKey : Option String) (x_api_key : Option String) :
    Except HErr Unit :=
  match apiKey with
  | none => .ok ()
  | some k =>
      if k ≠ "" ∧ x_api_key ≠ some k then
        .error ⟨401, .str "unauthorized"⟩
      else
        .ok ()

/-- `ensure_params` (main.py:64-66): raise 400 unless project, zone and
instance are all non-empty (Python `if not (project and zone and instance)`). -/
def ensure_params (project zone inst : String) : Except HErr Unit :=
  if project ≠ "" ∧ zone ≠ "" ∧ inst ≠ "" then
    .ok ()
  else
    .error ⟨400, .str "PROJECT_ID/ZONE/INSTANCE not set"⟩

/-- `_raise_http` (main.py:74-82): build the `HTTPException` detail from the
remote body text; `parsed` is the JSON parse of the text (`none` when the
text is not JSON), in which case the detail is the text truncated to 1000
characters wrapped in an error object. -/
def raise_http (status : Nat) (text : String)
    (parsed : Option (List (String × String))) : HErr :=
  match parsed with
  | some j => ⟨status, .obj j⟩
  | none => ⟨status, .obj [("error", text.take 1000)]⟩

/-- One HTTP reply from the compute-control API: status code, raw body text,
and the JSON parse of that text (`none` when the text is not valid JSON). -/
structure RemoteReply where
  status : Nat
  text : String
  parsed : Option (List (String × String))
deriving DecidableEq

/-- `gce_req` (main.py:84-90): raise via `_raise_http` when the remote status
is ≥ 300; otherwise return `r.json()` when the body is non-empty (an invalid
JSON body makes `r.json()` raise, surfacing as an unhandled 500), else `{}`. -/
def gce_req (reply : RemoteReply) : Except HErr (List (String × String)) :=
  if 300 ≤ reply.status then
    .error (raise_http reply.status reply.text reply.parsed)
  else if reply.text = "" then
    .ok []
  else
    match reply.parsed with
    | some j => .ok j
    | none => .error ⟨500, .str "Internal Server Error"⟩

/-- Number of outbound network operations one `gce_req` performs: the token
fetch in `get_access_token` plus the request itself. -/
def gceCalls : Nat := 2

/-- `/vm/start` (main.py:123-133): key check, parameter check, then POST the
start URL through `gce_req`, returning the remote operation object verbatim. -/
def vm_start (apiKey : Option String) (project zone inst : String)
    (x_api_key : Option String) (reply : RemoteReply) :
    Except HErr (List (String × String)) × Nat :=
  match check_key apiKey x_api_key with
  | .error e => (.error e, 0)
  | .ok _ =>
      match ensure_params project zone inst with
      | .error e => (.error e, 0)
      | .ok _ => (gce_req reply, gceCalls)

/-- `/vm/stop` (main.py:135-145): same shape as `/vm/start` against the stop
URL. -/
def vm_stop (apiKey : Option String) (project zone inst : String)
    (x_api_key : Option String) (reply : RemoteReply) :
    Except HErr (List (String × String)) × Nat :=
  match check_key apiKey x_api_key with
  | .error e => (.error e, 0)
  | .ok _ =>
      match ensure_params project zone inst with
      | .error e => (.error e, 0)
      | .ok _ => (gce_req reply, gceCalls)

/-- The `{name, zone, status}` body returned by `/vm/status`. -/
structure VmBody where
  name : String
  zone : String
  status : String
deriving DecidableEq

/-- `/vm/status` (main.py:147-157): key check, parameter check, GET the
instance object, then return `{name, zone, status}` with
`status = j.get("status", "UNKNOWN")`. -/
def vm_status (apiKey : Option String) (project zone inst : String)
    (x_api_key : Option String) (reply : RemoteReply) :
    Except HErr VmBody × Nat :=
  match check_key apiKey x_api_key with
  | .error e => (.error e, 0)
  | .ok _ =>
      match ensure_params project zone inst with
      | .error e => (.error e, 0)
      | .ok _ =>
          match gce_req reply with
          | .error e => (.error e, gceCalls)
          | .ok j =>
              (.ok ⟨inst, zone, (j.lookup "status").getD "UNKNOWN"⟩, gceCalls)

/-!
## ComfyUI proxy endpoints

The remote ComfyUI service is described by explicit reply values.  For the
`/comfy/result` poll loop, each iteration of the `while` loop is summarised
by a `CheckResult`: the combined outcome of `comfy_get("/history/<id>")`,
`r.json()`, and the membership test `prompt_id in hist`.
-/

/-- A small arithmetic fact about the poll-loop clock: stepping the clock by
one interval removes exactly one from the remaining-check count
`⌈(deadline - t) / interval⌉₊`. -/
theorem nat_ceil_sub_one_add_one (q : ℚ) (hq : 0 < q) :
    Nat.ceil (q - 1) + 1 = Nat.ceil q := by
  rcases le_or_lt q 1 with h1 | h1
  · have h0 : Nat.ceil (q - 1) = 0 := Nat.ceil_eq_zero.mpr (by linarith)
    have hc1 : Nat.ceil q = 1 := by
      refine le_antisymm ?_ (Nat.one_le_ceil_iff.mpr hq)
      exact Nat.ceil_le.mpr (by exact_mod_cast h1)
    omega
  · have hle : Nat.ceil q ≤ Nat.ceil (q - 1) + 1 := by
      apply Nat.ceil_le.mpr
      push_cast
      have h2 := Nat.le_ceil (q - 1)
      push_cast at h2
      linarith
    have hlt : Nat.ceil (q - 1) < Nat.ceil q := by
      rw [Nat.lt_ceil]
      have h3 := Nat.ceil_lt_add_one (a := q - 1) (by linarith)
      push_cast at h3 ⊢
      linarith
    omega

/-- Advancing the clock by one poll interval decreases the remaining-check
count by exactly one, as long as the deadline has not passed. -/
theorem ceilChecks_step (d t i : ℚ) (hi : 0 < i) (ht : t < d) :
    Nat.ceil ((d - (t + i)) / i) + 1 = Nat.ceil ((d - t) / i) := by
  have hne : i ≠ 0 := ne_of_gt hi
  have hq : 0 < (d - t) / i := div_pos (by linarith) hi
  rw [show d - (t + i) = d - t - i by ring, sub_div, div_self hne]
  exact nat_ceil_sub_one_add_one _ hq

/-- Strict decrease of the remaining-check count: the termination measure of
the `/comfy/result` poll loop. -/
theorem ceilChecks_lt (d t i : ℚ) (hi : 0 < i) (ht : t < d) :
    Nat.ceil ((d - (t + i)) / i) < Nat.ceil ((d - t) / i) := by
  have h := ceilChecks_step d t i hi ht
  omega

/-- One entry of a node's `images` list in the ComfyUI history: the code only
reads its optional `filename` field. -/
structure ImgRec where
  filename : Option String
deriving DecidableEq

/-- One output node record in the ComfyUI history: the code only reads its
`images` list (`out.get("images", [])`, already defaulted to empty). -/
structure NodeOut where
  images : List ImgRec
deriving DecidableEq

/-- The outcome of one poll-loop check against `/history/<prompt_id>`:
either `comfy_get` raised an `HTTPException` (non-2xx status, e.g. a 404
while the history entry is not yet created), or some other exception was
raised (connection failure, JSON decode error), or a history mapping was
obtained, in which `entry` is `none` when `prompt_id` is absent and
otherwise holds `hist[prompt_id].get("outputs", {})` as a node list. -/
inductive CheckResult where
  | httpErr (status : Nat) (detail : Detail)
  | exc (msg : String)
  | history (entry : Option (List (String × NodeOut)))
deriving DecidableEq

/-- Rendering of an `HTTPException` detail as Python `str(he.detail)` would;
the exact rendering of object payloads is abstracted. -/
def detailStr : Detail → String
  | .str s => s
  | .obj j => String.intercalate ", " (j.map fun p => p.1 ++ "=" ++ p.2)

/-- The error text the loop records for a check (`str(he.detail)` for an
`HTTPException`, `str(e)` otherwise, nothing for a history reply). -/
def errMsg : CheckResult → Option String
  | .httpErr _ d => some (detailStr d)
  | .exc m => some m
  | .history _ => none

/-- The flattened filename extraction of main.py:216-222: every truthy
`filename` of every image of every output node, in node order. -/
def extractFiles (outputs : List (String × NodeOut)) : List String :=
  outputs.flatMap fun p =>
    p.2.images.filterMap fun img =>
      match img.filename with
      | some fn => if fn ≠ "" then some fn else none
      | none => none

/-- A check is successful when the history entry exists and yields at least
one extracted filename (the loop's early-return condition `if files:`). -/
def isSuccess (c : CheckResult) : Bool :=
  match c with
  | .history (some outs) => !(extractFiles outs).isEmpty
  | _ => false

/-- The value of the loop's `last_error` variable after executing checks
`k, k+1, ..., k+c-1` starting from the value `e`. -/
def lastErrUpto (check : Nat → CheckResult) : Nat → Option String → Nat → Option String
  | _, e, 0 => e
  | k, e, c + 1 =>
      lastErrUpto check (k + 1)
        (match errMsg (check k) with
         | some m => some m
         | none => e) c

/-- The response body of `/comfy/result`: HTTP status (both the success
return and the timeout `JSONResponse` use 200), the `done` flag, the file
list, and the optional `error` text (absent on success). -/
structure ComfyBody where
  statusCode : Nat
  done : Bool
  files : List String
  error : Option String
deriving DecidableEq

/-- The `while time.time() < deadline` poll loop of main.py:207-238, with an
explicit rational clock `t` advanced by `poll_interval` at each
`time.sleep`.  `k` numbers the checks; the second component counts the
checks performed.  An `HTTPException` or other exception during a check is
recorded in `last_error` and polling continues; a history reply without the
prompt identifier, or with no extracted files yet, continues with
`last_error` unchanged; a non-empty file list returns
`{done: true, files}` immediately; once the deadline is reached the loop
returns the status-200 timeout body `{done: false, files: [], error}`. -/
def comfyLoop (check : Nat → CheckResult) (interval : ℚ) (hI : 0 < interval)
    (deadline : ℚ) (k : Nat) (t : ℚ) (lastError : Option String) :
    ComfyBody × Nat :=
  if h : t < deadline then
    match check k with
    | .httpErr _ d =>
        let r := comfyLoop check interval hI deadline (k + 1) (t + interval)
          (some (detailStr d))
        (r.1, r.2 + 1)
    | .exc m =>
        let r := comfyLoop check interval hI deadline (k + 1) (t + interval)
          (some m)
        (r.1, r.2 + 1)
    | .history none =>
        let r := comfyLoop check interval hI deadline (k + 1) (t + interval)
          lastError
        (r.1, r.2 + 1)
    | .history (some outs) =>
        let files := extractFiles outs
        if files.isEmpty then
          let r := comfyLoop check interval hI deadline (k + 1) (t + interval)
            lastError
          (r.1, r.2 + 1)
        else
          (⟨200, true, files, none⟩, 1)
  else
    (⟨200, false, [], lastError⟩, 0)
termination_by Nat.ceil ((deadline - t) / interval)
decreasing_by
  all_goals exact ceilChecks_lt deadline t interval hI h

/-- `/comfy/result` (main.py:192-238): key check, then run the poll loop
with deadline `timeout_sec` on a clock starting at 0.  When `COMFY_BASEURL`
is not configured, every `comfy_get` raises an `HTTPException(500)` before
any network traffic, which the loop records like any other per-check error.
`prompt_id` is carried by the `remote` trace.  The second component counts
outbound requests: one per check when a base URL is configured. -/
def comfy_result (apiKey base : Option String) (prompt_id : String)
    (timeout_sec : Int) (poll_interval : ℚ) (hI : 0 < poll_interval)
    (x_api_key : Option String) (remote : Nat → CheckResult) :
    Except HErr ComfyBody × Nat :=
  match check_key apiKey x_api_key with
  | .error e => (.error e, 0)
  | .ok _ =>
      let check := fun k =>
        if optTruthy base then remote k
        else .httpErr 500 (.str "COMFY_BASEURL not set")
      let r := comfyLoop check poll_interval hI (timeout_sec : ℚ) 0 0 none
      (.ok r.1, if optTruthy base then r.2 else 0)

/-- The failure mode of one `comfy_get` or `comfy_post` call, as the callers
distinguish it: a raised `HTTPException` (re-raised verbatim by handlers
with an `except HTTPException: raise` clause) or any other exception
(connection failure), which handlers wrap in a 502. -/
inductive CallFail where
  | httpExc (e : HErr)
  | exc (msg : String)
deriving DecidableEq

/-- `comfy_get` (main.py:95-102): raise `HTTPException(500)` before any
network traffic when no base URL is configured; otherwise issue the GET
(one outbound call), turning a connection failure into a plain exception
and a status ≥ 300 into an `HTTPException` via `_raise_http`. -/
def comfy_get (base : Option String) (remote : Except String RemoteReply) :
    Except CallFail RemoteReply × Nat :=
  if optTruthy base then
    match remote with
    | .error msg => (.error (.exc msg), 1)
    | .ok r =>
        if 300 ≤ r.status then
          (.error (.httpExc (raise_http r.status r.text r.parsed)), 1)
        else
          (.ok r, 1)
  else
    (.error (.httpExc ⟨500, .str "COMFY_BASEURL not set"⟩), 0)

/-- `comfy_post` (main.py:104-111): identical control flow to `comfy_get`
for a POST with a JSON payload. -/
def comfy_post (base : Option String) (remote : Except String RemoteReply) :
    Except CallFail RemoteReply × Nat :=
  if optTruthy base then
    match remote with
    | .error msg => (.error (.exc msg), 1)
    | .ok r =>
        if 300 ≤ r.status then
          (.error (.httpExc (raise_http r.status r.text r.parsed)), 1)
        else
          (.ok r, 1)
  else
    (.error (.httpExc ⟨500, .str "COMFY_BASEURL not set"⟩), 0)

/-- Rendering of a raised `HTTPException` as Python `str(e)` would show it;
the exact rendering is abstracted as status followed by detail. -/
def excStr (e : HErr) : String :=
  toString e.status ++ ": " ++ detailStr e.detail

/-- The `{ok, status}` body returned by `/comfy/ping`. -/
structure PingBody where
  ok : Bool
  status : Nat
deriving DecidableEq

/-- `/comfy/ping` (main.py:162-169): key check, then `comfy_get` on
`/system_stats` inside a bare `except Exception` — so even a raised
`HTTPException` (which is an `Exception`) is converted to a 502. -/
def comfy_ping (apiKey base : Option String) (x_api_key : Option String)
    (remote : Except String RemoteReply) : Except HErr PingBody × Nat :=
  match check_key apiKey x_api_key with
  | .error e => (.error e, 0)
  | .ok _ =>
      match comfy_get base remote with
      | (.ok r, n) => (.ok ⟨decide (r.status < 400), r.status⟩, n)
      | (.error (.httpExc e), n) =>
          (.error ⟨502, .str ("connect failed: " ++ excStr e)⟩, n)
      | (.error (.exc m), n) =>
          (.error ⟨502, .str ("connect failed: " ++ m)⟩, n)

/-- `/comfy/run` (main.py:171-190): key check, POST the payload to
`/prompt`, re-raise any `HTTPException` verbatim, wrap any other exception
(including a failing `r.json()`, abstracted here as `parsed = none`) in a
502, and require a `prompt_id` key in the parsed reply. -/
def comfy_run (apiKey base : Option String)
    (payload : List (String × String)) (x_api_key : Option String)
    (remote : Except String RemoteReply) :
    Except HErr (List (String × String)) × Nat :=
  match check_key apiKey x_api_key with
  | .error e => (.error e, 0)
  | .ok _ =>
      match comfy_post base remote with
      | (.error (.httpExc e), n) => (.error e, n)
      | (.error (.exc m), n) =>
          (.error ⟨502, .str ("ComfyUI error: " ++ m)⟩, n)
      | (.ok r, n) =>
          match r.parsed with
          | none => (.error ⟨502, .str "ComfyUI error: invalid JSON"⟩, n)
          | some j =>
              if (j.lookup "prompt_id").isSome then
                (.ok j, n)
              else
                (.error ⟨502, .str "Unexpected response from ComfyUI"⟩, n)

/-- The streamed artifact of `/comfy/fetch`, summarised by the media type
chosen for the `StreamingResponse`. -/
structure FetchBody where
  mime : String
deriving DecidableEq

/-- `/comfy/fetch` (main.py:240-260): key check, GET `/view` for the named
file, re-raise any `HTTPException`, wrap other exceptions in a 502, and
stream the body back with `mimetypes.guess_type` (passed in as `guess`,
ambient standard-library behaviour) falling back to `image/png`. -/
def comfy_fetch (apiKey base : Option String) (filename : String)
    (x_api_key : Option String) (guess : String → Option String)
    (remote : Except String RemoteReply) : Except HErr FetchBody × Nat :=
  match check_key apiKey x_api_key with
  | .error e => (.error e, 0)
  | .ok _ =>
      match comfy_get base remote with
      | (.error (.httpExc e), n) => (.error e, n)
      | (.error (.exc m), n) =>
          (.error ⟨502, .str ("ComfyUI fetch error: " ++ m)⟩, n)
      | (.ok _, n) =>
          let mime :=
            match guess filename with
            | some g => if g ≠ "" then g else "image/png"
            | none => "image/png"
          (.ok ⟨mime⟩, n)

/-!
## The `/vm/wait` endpoint

The repository's `src/` tree contains no handler for `POST /vm/wait`; the
endpoint exists only in the specification, which fixes its contract in
sections 4.1 and 6.  It is therefore modelled from the spec below.
-/

/-- Modelled from the spec: the fixed-interval status-wait loop of the
missing `/vm/wait` handler (spec section 4.1).  Each of up to `max_checks`
checks issues one status query (`statusAt` gives the status observed by the
check with that index, each costing `gceCalls` outbound operations); a
status equal to `target` returns success immediately, and exhausting all
checks fails with HTTP 408 carrying the last observed status. -/
def vmWaitLoop (statusAt : Nat → String) (target : String) :
    Nat → Nat → Option String → Except HErr String × Nat
  | _, 0, last =>
      (.error ⟨408, .obj [("error", "timeout"),
                          ("status", last.getD "UNKNOWN")]⟩, 0)
  | k, n + 1, last =>
      let s := statusAt k
      if s = target then
        (.ok s, gceCalls)
      else
        let r := vmWaitLoop statusAt target (k + 1) n (some s)
        (r.1, r.2 + gceCalls)

/-- Modelled from the spec: the missing `POST /vm/wait` handler (spec
sections 4.1 and 6): API-key check and parameter check as on the other VM
endpoints, then the wait loop; on success the body is `{name, zone,
status}` built like the `/vm/status` body.  `interval_sec` only paces the
wall-clock sleeps and does not affect the returned value. -/
def vm_wait (apiKey : Option String) (project zone inst target : String)
    (max_checks interval_sec : Nat) (x_api_key : Option String)
    (statusAt : Nat → String) : Except HErr VmBody × Nat :=
  match check_key apiKey x_api_key with
  | .error e => (.error e, 0)
  | .ok _ =>
      match ensure_params project zone inst with
      | .error e => (.error e, 0)
      | .ok _ =>
          let r := vmWaitLoop statusAt target 0 max_checks none
          (r.1.map fun s => ⟨inst, zone, s⟩, r.2)


/-!
## Poll-loop lemmas
-/

/-- Once the deadline is reached the loop returns the timeout body at once. -/
theorem comfyLoop_stop (check : Nat → CheckResult) (interval : ℚ)
    (hI : 0 < interval) (deadline : ℚ) (k : Nat) (t : ℚ) (e : Option String)
    (h : ¬ t < deadline) :
    comfyLoop check interval hI deadline k t e = (⟨200, false, [], e⟩, 0) := by
  conv_lhs => unfold comfyLoop
  simp [h]

/-- A non-successful check sleeps and continues with the recorded error. -/
theorem comfyLoop_step_cont (check : Nat → CheckResult) (interval : ℚ)
    (hI : 0 < interval) (deadline : ℚ) (k : Nat) (t : ℚ) (e : Option String)
    (h : t < deadline) (hns : isSuccess (check k) = false) :
    comfyLoop check interval hI deadline k t e =
      ((comfyLoop check interval hI deadline (k + 1) (t + interval)
          (match errMsg (check k) with
           | some m => some m
           | none => e)).1,
       (comfyLoop check interval hI deadline (k + 1) (t + interval)
          (match errMsg (check k) with
           | some m => some m
           | none => e)).2 + 1) := by
  conv_lhs => unfold comfyLoop
  cases hc : check k with
  | httpErr s d => simp [h, hc, errMsg]
  | exc m => simp [h, hc, errMsg]
  | history entry =>
      cases entry with
      | none => simp [h, hc, errMsg]
      | some outs =>
          have hemp : (extractFiles outs).isEmpty = true := by
            have h1 := hns
            rw [hc] at h1
            simpa [isSuccess] using h1
          simp [h, hc, errMsg, hemp]

/-- A successful check returns immediately with the extracted files. -/
theorem comfyLoop_step_succ (check : Nat → CheckResult) (interval : ℚ)
    (hI : 0 < interval) (deadline : ℚ) (k : Nat) (t : ℚ) (e : Option String)
    (h : t < deadline) (outs : List (String × NodeOut))
    (hc : check k = .history (some outs))
    (hf : (extractFiles outs).isEmpty = false) :
    comfyLoop check interval hI deadline k t e =
      (⟨200, true, extractFiles outs, none⟩, 1) := by
  conv_lhs => unfold comfyLoop
  simp [h, hc, hf]

/-- Before the deadline the remaining-check count is positive. -/
theorem ceilChecks_pos (d t i : ℚ) (hi : 0 < i) (ht : t < d) :
    0 < Nat.ceil ((d - t) / i) :=
  Nat.ceil_pos.mpr (div_pos (by linarith) hi)

/-- Once the remaining-check count is zero the deadline has passed. -/
theorem ceilChecks_zero (d t i : ℚ) (hi : 0 < i)
    (h : Nat.ceil ((d - t) / i) = 0) : ¬ t < d := by
  intro ht
  have := ceilChecks_pos d t i hi ht
  omega

/-- When no check is ever successful, the loop runs through all
`⌈(deadline - t) / interval⌉₊` remaining checks and returns the timeout
body with the accumulated last error. -/
theorem comfyLoop_noSuccess (check : Nat → CheckResult) (interval : ℚ)
    (hI : 0 < interval) (deadline : ℚ)
    (hns : ∀ j, isSuccess (check j) = false) :
    ∀ (N k : Nat) (t : ℚ) (e : Option String),
      Nat.ceil ((deadline - t) / interval) = N →
      comfyLoop check interval hI deadline k t e =
        (⟨200, false, [], lastErrUpto check k e N⟩, N) := by
  intro N
  induction N with
  | zero =>
      intro k t e hN
      rw [comfyLoop_stop check interval hI deadline k t e
        (ceilChecks_zero deadline t interval hI hN)]
      rfl
  | succ N ih =>
      intro k t e hN
      have ht : t < deadline := by
        by_contra hc
        push_neg at hc
        have hd : deadline - t ≤ 0 := by linarith
        have h0 := Nat.ceil_eq_zero.mpr
          (div_nonpos_iff.mpr (Or.inr ⟨hd, hI.le⟩))
        rw [h0] at hN
        omega
      have hstep := ceilChecks_step deadline t interval hI ht
      have hN' : Nat.ceil ((deadline - (t + interval)) / interval) = N := by
        omega
      rw [comfyLoop_step_cont check interval hI deadline k t e ht (hns k)]
      rw [ih (k + 1) (t + interval) _ hN']
      rfl

/-- The loop performs at most `⌈(deadline - t) / interval⌉₊` checks. -/
theorem comfyLoop_count_le (check : Nat → CheckResult) (interval : ℚ)
    (hI : 0 < interval) (deadline : ℚ) :
    ∀ (N k : Nat) (t : ℚ) (e : Option String),
      Nat.ceil ((deadline - t) / interval) = N →
      (comfyLoop check interval hI deadline k t e).2 ≤ N := by
  intro N
  induction N with
  | zero =>
      intro k t e hN
      rw [comfyLoop_stop check interval hI deadline k t e
        (ceilChecks_zero deadline t interval hI hN)]
  | succ N ih =>
      intro k t e hN
      by_cases ht : t < deadline
      · have hstep := ceilChecks_step deadline t interval hI ht
        have hN' : Nat.ceil ((deadline - (t + interval)) / interval) = N := by
          omega
        cases hs : isSuccess (check k) with
        | false =>
            rw [comfyLoop_step_cont check interval hI deadline k t e ht hs]
            have hle := ih (k + 1) (t + interval)
              (match errMsg (check k) with
               | some m => some m
               | none => e) hN'
            simp only []
            omega
        | true =>
            cases hcr : check k with
            | httpErr s d =>
                rw [hcr] at hs
                simp [isSuccess] at hs
            | exc m =>
                rw [hcr] at hs
                simp [isSuccess] at hs
            | history entry =>
                cases entry with
                | none =>
                    rw [hcr] at hs
                    simp [isSuccess] at hs
                | some outs =>
                    have hf : (extractFiles outs).isEmpty = false := by
                      rw [hcr] at hs
                      simpa [isSuccess] using hs
                    rw [comfyLoop_step_succ check interval hI deadline k t e ht
                      outs hcr hf]
                    simp
      · rw [comfyLoop_stop check interval hI deadline k t e ht]
        simp

/-- The loop, started with `m` non-successful checks ahead of a successful
one that still happens before the deadline, returns the files of that first
successful check after exactly `m + 1` checks — no further polling. -/
theorem comfyLoop_firstSuccess (check : Nat → CheckResult) (interval : ℚ)
    (hI : 0 < interval) (deadline : ℚ) (outs : List (String × NodeOut)) :
    ∀ (m k : Nat) (t : ℚ) (e : Option String),
      (∀ j, j < m → isSuccess (check (k + j)) = false) →
      check (k + m) = .history (some outs) →
      (extractFiles outs).isEmpty = false →
      (m : ℚ) * interval < deadline - t →
      comfyLoop check interval hI deadline k t e =
        (⟨200, true, extractFiles outs, none⟩, m + 1) := by
  intro m
  induction m with
  | zero =>
      intro k t e hpre hm hf htime
      have ht : t < deadline := by
        push_cast at htime
        linarith
      rw [Nat.add_zero] at hm
      exact comfyLoop_step_succ check interval hI deadline k t e ht outs hm hf
  | succ m ih =>
      intro k t e hpre hm hf htime
      have hpos : (0 : ℚ) ≤ (m : ℚ) * interval := by positivity
      have ht : t < deadline := by
        push_cast at htime
        nlinarith
      have h0 : isSuccess (check k) = false := by
        have := hpre 0 (Nat.succ_pos m)
        simpa using this
      rw [comfyLoop_step_cont check interval hI deadline k t e ht h0]
      have hrec := ih (k + 1) (t + interval)
        (match errMsg (check k) with
         | some m => some m
         | none => e)
        (fun j hj => by
          have := hpre (j + 1) (Nat.succ_lt_succ hj)
          simpa [Nat.add_assoc, Nat.add_comm 1 j] using this)
        (by
          have := hm
          simpa [Nat.add_assoc, Nat.add_comm 1 m] using this)
        hf
        (by push_cast at htime ⊢; linarith)
      rw [hrec]

/-- The loop performs at least one check whenever started before the
deadline. -/
theorem comfyLoop_count_pos (check : Nat → CheckResult) (interval : ℚ)
    (hI : 0 < interval) (deadline : ℚ) (k : Nat) (t : ℚ) (e : Option String)
    (ht : t < deadline) :
    1 ≤ (comfyLoop check interval hI deadline k t e).2 := by
  cases hs : isSuccess (check k) with
  | false =>
      rw [comfyLoop_step_cont check interval hI deadline k t e ht hs]
      simp
  | true =>
      cases hcr : check k with
      | httpErr s d =>
          rw [hcr] at hs
          simp [isSuccess] at hs
      | exc m =>
          rw [hcr] at hs
          simp [isSuccess] at hs
      | history entry =>
          cases entry with
          | none =>
              rw [hcr] at hs
              simp [isSuccess] at hs
          | some outs =>
              have hf : (extractFiles outs).isEmpty = false := by
                rw [hcr] at hs
                simpa [isSuccess] using hs
              rw [comfyLoop_step_succ check interval hI deadline k t e ht
                outs hcr hf]

/-- After a non-successful check at offset `j` whose successor check still
falls before the deadline, the loop goes on to perform at least `j + 2`
checks: a mid-loop failure does not end the polling. -/
theorem comfyLoop_count_ge (check : Nat → CheckResult) (interval : ℚ)
    (hI : 0 < interval) (deadline : ℚ) :
    ∀ (j k : Nat) (t : ℚ) (e : Option String),
      (∀ j', j' ≤ j → isSuccess (check (k + j')) = false) →
      ((j : ℚ) + 1) * interval < deadline - t →
      j + 2 ≤ (comfyLoop check interval hI deadline k t e).2 := by
  intro j
  induction j with
  | zero =>
      intro k t e hpre htime
      have ht : t < deadline := by
        push_cast at htime
        linarith
      have h0 : isSuccess (check k) = false := by
        have := hpre 0 (Nat.le_refl 0)
        simpa using this
      rw [comfyLoop_step_cont check interval hI deadline k t e ht h0]
      have ht' : t + interval < deadline := by
        push_cast at htime
        linarith
      have := comfyLoop_count_pos check interval hI deadline (k + 1)
        (t + interval)
        (match errMsg (check k) with
         | some m => some m
         | none => e) ht'
      omega
  | succ j ih =>
      intro k t e hpre htime
      have hpos : (0 : ℚ) ≤ (j : ℚ) * interval := by positivity
      have ht : t < deadline := by
        push_cast at htime
        nlinarith
      have h0 : isSuccess (check k) = false := by
        have := hpre 0 (Nat.zero_le _)
        simpa using this
      rw [comfyLoop_step_cont check interval hI deadline k t e ht h0]
      have hrec := ih (k + 1) (t + interval)
        (match errMsg (check k) with
         | some m => some m
         | none => e)
        (fun j' hj' => by
          have := hpre (j' + 1) (Nat.succ_le_succ hj')
          simpa [Nat.add_assoc, Nat.add_comm 1 j'] using this)
        (by push_cast at htime ⊢; linarith)
      omega

/-- The recorded last error is either the initial value or the message of
one of the executed checks. -/
theorem lastErrUpto_cases (check : Nat → CheckResult) :
    ∀ (c k : Nat) (e : Option String),
      lastErrUpto check k e c = e ∨
      ∃ j, j < c ∧ lastErrUpto check k e c = errMsg (check (k + j)) ∧
        (errMsg (check (k + j))).isSome := by
  intro c
  induction c with
  | zero =>
      intro k e
      exact Or.inl rfl
  | succ c ih =>
      intro k e
      cases hm : errMsg (check k) with
      | none =>
          have heq : lastErrUpto check k e (c + 1) =
              lastErrUpto check (k + 1) e c := by
            simp [lastErrUpto, hm]
          rcases ih (k + 1) e with h | ⟨j, hj, hval, hsome⟩
          · exact Or.inl (heq.trans h)
          · refine Or.inr ⟨j + 1, by omega, ?_, ?_⟩
            · rw [heq, hval]
              have harg : k + 1 + j = k + (j + 1) := by omega
              rw [harg]
            · have : k + 1 + j = k + (j + 1) := by omega
              rw [← this]
              exact hsome
      | some m =>
          have heq : lastErrUpto check k e (c + 1) =
              lastErrUpto check (k + 1) (some m) c := by
            simp [lastErrUpto, hm]
          rcases ih (k + 1) (some m) with h | ⟨j, hj, hval, hsome⟩
          · refine Or.inr ⟨0, by omega, ?_, ?_⟩
            · rw [heq, h, Nat.add_zero, hm]
            · rw [Nat.add_zero, hm]
              rfl
          · refine Or.inr ⟨j + 1, by omega, ?_, ?_⟩
            · rw [heq, hval]
              have harg : k + 1 + j = k + (j + 1) := by omega
              rw [harg]
            · have : k + 1 + j = k + (j + 1) := by omega
              rw [← this]
              exact hsome

/-- Checks that record no message leave the last error unchanged. -/
theorem lastErrUpto_none (check : Nat → CheckResult) :
    ∀ (c k : Nat) (e : Option String),
      (∀ j, j < c → errMsg (check (k + j)) = none) →
      lastErrUpto check k e c = e := by
  intro c
  induction c with
  | zero =>
      intro k e _
      rfl
  | succ c ih =>
      intro k e hnone
      have h0 : errMsg (check k) = none := by
        have := hnone 0 (Nat.succ_pos c)
        simpa using this
      have heq : lastErrUpto check k e (c + 1) =
          lastErrUpto check (k + 1) e c := by
        simp [lastErrUpto, h0]
      rw [heq]
      exact ih (k + 1) e (fun j hj => by
        have := hnone (j + 1) (Nat.succ_lt_succ hj)
        have harg : k + (j + 1) = k + 1 + j := by omega
        rw [harg] at this
        exact this)

/-- A check that records an error message — an `HTTPException` from the
remote (an HTTP error status) or any other exception — is never a
successful check. -/
theorem isSuccess_false_of_recorded_err (c : CheckResult)
    (h : (errMsg c).isSome = true) : isSuccess c = false := by
  cases c with
  | httpErr s d => rfl
  | exc m => rfl
  | history entry => simp [errMsg] at h

/-- When every executed check records an error — whether an HTTP error
status or any other exception — the recorded last error is the message of
the final check. -/
theorem lastErrUpto_all_err (check : Nat → CheckResult) :
    ∀ (c k : Nat) (e : Option String),
      1 ≤ c →
      (∀ j, j < c → (errMsg (check (k + j))).isSome = true) →
      lastErrUpto check k e c = errMsg (check (k + c - 1)) := by
  intro c
  induction c with
  | zero =>
      intro k e hc _
      omega
  | succ c ih =>
      intro k e _ herr
      have h0 : (errMsg (check k)).isSome = true := by
        have := herr 0 (Nat.succ_pos c)
        simpa using this
      cases hm : errMsg (check k) with
      | none =>
          rw [hm] at h0
          simp at h0
      | some m =>
          have heq : lastErrUpto check k e (c + 1) =
              lastErrUpto check (k + 1) (some m) c := by
            simp [lastErrUpto, hm]
          rw [heq]
          rcases Nat.eq_zero_or_pos c with hc0 | hc1
          · subst hc0
            show some m = errMsg (check (k + 1 - 1))
            have harg : k + 1 - 1 = k := by omega
            rw [harg, hm]
          · have hrec := ih (k + 1) (some m) hc1 (fun j hj => by
              have := herr (j + 1) (Nat.succ_lt_succ hj)
              have harg : k + (j + 1) = k + 1 + j := by omega
              rw [harg] at this
              exact this)
            rw [hrec]
            have harg : k + 1 + c - 1 = k + (c + 1) - 1 := by omega
            rw [harg]

/-!
## Wait-loop lemmas (for the spec-modelled `/vm/wait`)
-/

/-- If the first `m` checks all miss the target and check `m` hits it,
inside the check budget, the wait loop returns the target status. -/
theorem vmWaitLoop_success (statusAt : Nat → String) (target : String) :
    ∀ (m k n : Nat) (last : Option String),
      m < n →
      (∀ j, j < m → statusAt (k + j) ≠ target) →
      statusAt (k + m) = target →
      (vmWaitLoop statusAt target k n last).1 = .ok target := by
  intro m
  induction m with
  | zero =>
      intro k n last hmn hpre hm
      rcases n with _ | n
      · omega
      · rw [Nat.add_zero] at hm
        simp [vmWaitLoop, hm]
  | succ m ih =>
      intro k n last hmn hpre hm
      rcases n with _ | n
      · omega
      · have h0 : statusAt k ≠ target := by
          have := hpre 0 (Nat.succ_pos m)
          simpa using this
        have hrec := ih (k + 1) n (some (statusAt k)) (by omega)
          (fun j hj => by
            have := hpre (j + 1) (Nat.succ_lt_succ hj)
            have harg : k + (j + 1) = k + 1 + j := by omega
            rw [harg] at this
            exact this)
          (by
            have harg : k + 1 + m = k + (m + 1) := by omega
            rw [harg]
            exact hm)
        simp only [vmWaitLoop, h0, if_neg]
        simpa using hrec

/-- If every check inside the budget misses the target, the wait loop
fails with 408 carrying the status observed by the final check, after
`gceCalls` outbound operations per check. -/
theorem vmWaitLoop_timeout (statusAt : Nat → String) (target : String) :
    ∀ (n k : Nat) (last : Option String),
      1 ≤ n →
      (∀ j, j < n → statusAt (k + j) ≠ target) →
      vmWaitLoop statusAt target k n last =
        (.error ⟨408, .obj [("error", "timeout"),
                            ("status", statusAt (k + n - 1))]⟩,
         gceCalls * n) := by
  intro n
  induction n with
  | zero =>
      intro k last hn _
      omega
  | succ n ih =>
      intro k last _ hmiss
      have h0 : statusAt k ≠ target := by
        have := hmiss 0 (Nat.succ_pos n)
        simpa using this
      rcases Nat.eq_zero_or_pos n with hn0 | hn1
      · subst hn0
        simp [vmWaitLoop, h0, gceCalls]
      · have hrec := ih (k + 1) (some (statusAt k)) hn1 (fun j hj => by
          have := hmiss (j + 1) (Nat.succ_lt_succ hj)
          have harg : k + (j + 1) = k + 1 + j := by omega
          rw [harg] at this
          exact this)
        have harg : k + 1 + n - 1 = k + (n + 1) - 1 := by omega
        rw [harg] at hrec
        simp only [vmWaitLoop, h0, if_neg]
        rw [hrec]
        constructor

/-- With the key check passed and a configured base URL, `/comfy/result` is
the poll loop run on the remote trace from clock 0 to deadline
`timeout_sec`, and its outbound-call count is the loop's check count. -/
theorem comfy_result_unfold (apiKey base : Option String)
    (b prompt_id : String) (timeout_sec : Int) (poll_interval : ℚ)
    (hI : 0 < poll_interval) (x_api_key : Option String)
    (remote : Nat → CheckResult)
    (hkey : check_key apiKey x_api_key = .ok ())
    (hbase : base = some b) (hb : b ≠ "") :
    comfy_result apiKey base prompt_id timeout_sec poll_interval hI
        x_api_key remote =
      (.ok (comfyLoop remote poll_interval hI (timeout_sec : ℚ) 0 0 none).1,
       (comfyLoop remote poll_interval hI (timeout_sec : ℚ) 0 0 none).2) := by
  have htr : optTruthy base = true := by
    subst hbase
    simp [optTruthy, hb]
  unfold comfy_result
  rw [hkey]
  simp [htr]

/-!
## Claim theorems
-/

/-- C9: for every `timeout_sec` in [1, 600] and `poll_interval` in (0, 10],
the `/comfy/result` poll loop terminates (it is a total function) after at
most `⌈timeout_sec / poll_interval⌉` checks: each iteration advances the
clock by `poll_interval` before the next deadline comparison. -/
theorem claim_C9_poll_loop_bounded (timeout_sec : Int) (poll_interval : ℚ)
    (check : Nat → CheckResult)
    (hT1 : 1 ≤ timeout_sec) (hT2 : timeout_sec ≤ 600)
    (hi1 : 0 < poll_interval) (hi2 : poll_interval ≤ 10) :
    (comfyLoop check poll_interval hi1 (timeout_sec : ℚ) 0 0 none).2 ≤
      Nat.ceil ((timeout_sec : ℚ) / poll_interval) := by
  have h := comfyLoop_count_le check poll_interval hi1 (timeout_sec : ℚ)
    (Nat.ceil (((timeout_sec : ℚ) - 0) / poll_interval)) 0 0 none rfl
  simpa using h

/-- Witness for C9 at `timeout_sec = 2`, `poll_interval = 1`. -/
theorem claim_C9_witness :
    (comfyLoop (fun _ => CheckResult.exc "boom") 1 (by decide)
        ((2 : Int) : ℚ) 0 0 none).2 ≤
      Nat.ceil (((2 : Int) : ℚ) / 1) :=
  claim_C9_poll_loop_bounded 2 1 (fun _ => CheckResult.exc "boom")
    (by decide) (by decide) (by decide) (by decide)

/-- C2: if the job identifier never appears in the remote history response,
`/comfy/result` runs out all its checks and returns a non-error HTTP 200
body `{done: false, files: [], error: last error text or null}` instead of
raising or returning an error status. -/
theorem claim_C2_result_timeout_is_soft (apiKey base x_api_key : Option String)
    (b prompt_id : String) (timeout_sec : Int) (poll_interval : ℚ)
    (remote : Nat → CheckResult)
    (hkey : check_key apiKey x_api_key = .ok ())
    (hbase : base = some b) (hb : b ≠ "")
    (hT1 : 1 ≤ timeout_sec) (hT2 : timeout_sec ≤ 600)
    (hi1 : 0 < poll_interval) (hi2 : poll_interval ≤ 10)
    (hnever : ∀ j entry, remote j ≠ CheckResult.history (some entry)) :
    ∃ err : Option String,
      comfy_result apiKey base prompt_id timeout_sec poll_interval hi1
          x_api_key remote =
        (.ok ⟨200, false, [], err⟩,
         Nat.ceil ((timeout_sec : ℚ) / poll_interval)) ∧
      (err = none ∨
        ∃ j, err = errMsg (remote j) ∧ (errMsg (remote j)).isSome) := by
  have hns : ∀ j, isSuccess (remote j) = false := by
    intro j
    cases hc : remote j with
    | httpErr s d => simp [isSuccess]
    | exc m => simp [isSuccess]
    | history entry =>
        cases entry with
        | none => simp [isSuccess]
        | some outs => exact absurd hc (hnever j outs)
  have hloop := comfyLoop_noSuccess remote poll_interval hi1
    (timeout_sec : ℚ) hns (Nat.ceil ((timeout_sec : ℚ) / poll_interval))
    0 0 none (by rw [sub_zero])
  refine ⟨lastErrUpto remote 0 none
    (Nat.ceil ((timeout_sec : ℚ) / poll_interval)), ?_, ?_⟩
  · rw [comfy_result_unfold apiKey base b prompt_id timeout_sec
      poll_interval hi1 x_api_key remote hkey hbase hb]
    rw [hloop]
  · rcases lastErrUpto_cases remote
      (Nat.ceil ((timeout_sec : ℚ) / poll_interval)) 0 none with
      h | ⟨j, hj, hval, hsome⟩
    · exact Or.inl h
    · exact Or.inr ⟨j, by simpa using hval, by simpa using hsome⟩

/-- Witness for C2: no key configured, base URL set, remote history never
contains the identifier, `timeout_sec = 2`, `poll_interval = 1`. -/
theorem claim_C2_witness :
    ∃ err : Option String,
      comfy_result none (some "u") "id" 2 1 (by decide) none
          (fun _ => CheckResult.history none) =
        (.ok ⟨200, false, [], err⟩, Nat.ceil (((2 : Int) : ℚ) / 1)) ∧
      (err = none ∨
        ∃ j : Nat, err = errMsg (CheckResult.history none) ∧
          (errMsg (CheckResult.history none)).isSome) :=
  claim_C2_result_timeout_is_soft none (some "u") none "u" "id" 2 1
    (fun _ => CheckResult.history none) rfl rfl (by decide) (by decide)
    (by decide) (by decide) (by decide) (by intro j entry; simp)

/-- C3: on the first check at which the history record exists and some
output node yields a non-empty filename, `/comfy/result` returns
`{done: true, files: <the flattened list>}` immediately, having performed
exactly that check and no further one. -/
theorem claim_C3_result_first_success (apiKey base x_api_key : Option String)
    (b prompt_id : String) (timeout_sec : Int) (poll_interval : ℚ)
    (remote : Nat → CheckResult) (m : Nat) (outs : List (String × NodeOut))
    (hkey : check_key apiKey x_api_key = .ok ())
    (hbase : base = some b) (hb : b ≠ "")
    (hT1 : 1 ≤ timeout_sec) (hT2 : timeout_sec ≤ 600)
    (hi1 : 0 < poll_interval) (hi2 : poll_interval ≤ 10)
    (hfirst : ∀ k, k < m → isSuccess (remote k) = false)
    (hm : remote m = CheckResult.history (some outs))
    (hfiles : (extractFiles outs).isEmpty = false)
    (htime : (m : ℚ) * poll_interval < (timeout_sec : ℚ)) :
    comfy_result apiKey base prompt_id timeout_sec poll_interval hi1
        x_api_key remote =
      (.ok ⟨200, true, extractFiles outs, none⟩, m + 1) := by
  rw [comfy_result_unfold apiKey base b prompt_id timeout_sec
    poll_interval hi1 x_api_key remote hkey hbase hb]
  have hloop := comfyLoop_firstSuccess remote poll_interval hi1
    (timeout_sec : ℚ) outs m 0 0 none
    (fun j hj => by simpa using hfirst j hj)
    (by simpa using hm)
    hfiles
    (by simpa using htime)
  rw [hloop]

/-- Witness for C3: the identifier is absent on check 0 and check 1 finds
one image filename; the call returns it after exactly two checks. -/
theorem claim_C3_witness :
    comfy_result none (some "u") "id" 9 1 (by decide) none
        (fun n => if n = 0 then CheckResult.history none
          else CheckResult.history (some [("9", ⟨[⟨some "img.png"⟩]⟩)])) =
      (.ok ⟨200, true,
        extractFiles [("9", ⟨[⟨some "img.png"⟩]⟩)], none⟩, 1 + 1) :=
  claim_C3_result_first_success none (some "u") none "u" "id" 9 1
    (fun n => if n = 0 then CheckResult.history none
      else CheckResult.history (some [("9", ⟨[⟨some "img.png"⟩]⟩)]))
    1 [("9", ⟨[⟨some "img.png"⟩]⟩)] rfl rfl (by decide) (by decide)
    (by decide) (by decide) (by decide)
    (by
      intro k hk
      have hk0 : k = 0 := by omega
      subst hk0
      decide)
    (by decide)
    (by decide)
    (by push_cast; norm_num)

/-- C4: a per-check error — an HTTP error status from the remote
(`CheckResult.httpErr`, the `except HTTPException` path) or any other
exception (`CheckResult.exc`) — never propagates out of `/comfy/result`.
First conjunct: when every check records an error of either kind, the call
still returns `.ok` with the 200 timeout body whose `error` field is the
message recorded by the final check, after polling through the whole
deadline.  Second conjunct: erroring checks of either kind before a
successful check do not stop polling — the success is still surfaced. -/
theorem claim_C4_result_errors_absorbed (apiKey base x_api_key : Option String)
    (b prompt_id : String) (timeout_sec : Int) (poll_interval : ℚ)
    (hkey : check_key apiKey x_api_key = .ok ())
    (hbase : base = some b) (hb : b ≠ "")
    (hT1 : 1 ≤ timeout_sec) (hT2 : timeout_sec ≤ 600)
    (hi1 : 0 < poll_interval) (hi2 : poll_interval ≤ 10) :
    (∀ remote : Nat → CheckResult,
      (∀ j, (errMsg (remote j)).isSome = true) →
      comfy_result apiKey base prompt_id timeout_sec poll_interval hi1
          x_api_key remote =
        (.ok ⟨200, false, [],
          errMsg (remote
            (Nat.ceil ((timeout_sec : ℚ) / poll_interval) - 1))⟩,
         Nat.ceil ((timeout_sec : ℚ) / poll_interval))) ∧
    (∀ (remote : Nat → CheckResult) (m : Nat)
        (outs : List (String × NodeOut)),
      (∀ k, k < m → (errMsg (remote k)).isSome = true) →
      remote m = CheckResult.history (some outs) →
      (extractFiles outs).isEmpty = false →
      (m : ℚ) * poll_interval < (timeout_sec : ℚ) →
      comfy_result apiKey base prompt_id timeout_sec poll_interval hi1
          x_api_key remote =
        (.ok ⟨200, true, extractFiles outs, none⟩, m + 1)) := by
  have hNpos : 1 ≤ Nat.ceil ((timeout_sec : ℚ) / poll_interval) := by
    apply Nat.one_le_ceil_iff.mpr
    apply div_pos ?_ hi1
    exact_mod_cast Int.lt_iff_add_one_le.mpr (by omega)
  constructor
  · intro remote hall
    have hns : ∀ j, isSuccess (remote j) = false :=
      fun j => isSuccess_false_of_recorded_err (remote j) (hall j)
    have hloop := comfyLoop_noSuccess remote poll_interval hi1
      (timeout_sec : ℚ) hns (Nat.ceil ((timeout_sec : ℚ) / poll_interval))
      0 0 none (by rw [sub_zero])
    have hlast := lastErrUpto_all_err remote
      (Nat.ceil ((timeout_sec : ℚ) / poll_interval)) 0 none hNpos
      (fun j _ => hall (0 + j))
    rw [comfy_result_unfold apiKey base b prompt_id timeout_sec
      poll_interval hi1 x_api_key remote hkey hbase hb]
    rw [hloop]
    rw [show (0 + Nat.ceil ((timeout_sec : ℚ) / poll_interval) - 1)
        = Nat.ceil ((timeout_sec : ℚ) / poll_interval) - 1 by omega] at hlast
    rw [hlast]
  · intro remote m outs hpre hm hf htime
    rw [comfy_result_unfold apiKey base b prompt_id timeout_sec
      poll_interval hi1 x_api_key remote hkey hbase hb]
    have hfirst : ∀ j, j < m → isSuccess (remote j) = false :=
      fun j hj => isSuccess_false_of_recorded_err (remote j) (hpre j hj)
    have hloop := comfyLoop_firstSuccess remote poll_interval hi1
      (timeout_sec : ℚ) outs m 0 0 none
      (fun j hj => by simpa using hfirst j hj)
      (by simpa using hm)
      hf
      (by simpa using htime)
    rw [hloop]

/-- Witness for C4 on a trace mixing both error kinds: check 0 is an HTTP
404 from the remote, check 1 raises a plain exception; the call absorbs
both and returns the soft timeout body carrying the final message. -/
theorem claim_C4_witness :
    comfy_result none (some "u") "id" 2 1 (by decide) none
        (fun n => if n = 0 then CheckResult.httpErr 404 (Detail.str "nf")
          else CheckResult.exc "boom") =
      (.ok ⟨200, false, [],
        errMsg ((fun n =>
          if n = 0 then CheckResult.httpErr 404 (Detail.str "nf")
          else CheckResult.exc "boom")
          (Nat.ceil (((2 : Int) : ℚ) / 1) - 1))⟩,
       Nat.ceil (((2 : Int) : ℚ) / 1)) :=
  (claim_C4_result_errors_absorbed none (some "u") none "u" "id" 2 1
      rfl rfl (by decide) (by decide) (by decide) (by decide)
      (by decide)).1
    (fun n => if n = 0 then CheckResult.httpErr 404 (Detail.str "nf")
      else CheckResult.exc "boom")
    (by intro j; cases j <;> rfl)

/-- C5: a check on which the history query succeeds but lacks the job
identifier is treated as "not ready".  First conjunct: such a check (with
no success so far) is followed by at least one further check whenever the
next slot is still before the deadline.  Second conjunct: a run of only
identifier-absent checks records no error at all — the timeout body has
`error = none`. -/
theorem claim_C5_result_absent_id_not_ready
    (apiKey base x_api_key : Option String) (b prompt_id : String)
    (timeout_sec : Int) (poll_interval : ℚ)
    (hkey : check_key apiKey x_api_key = .ok ())
    (hbase : base = some b) (hb : b ≠ "")
    (hT1 : 1 ≤ timeout_sec) (hT2 : timeout_sec ≤ 600)
    (hi1 : 0 < poll_interval) (hi2 : poll_interval ≤ 10) :
    (∀ (remote : Nat → CheckResult) (j : Nat),
      (∀ j', j' ≤ j → isSuccess (remote j') = false) →
      remote j = CheckResult.history none →
      ((j : ℚ) + 1) * poll_interval < (timeout_sec : ℚ) →
      j + 2 ≤ (comfy_result apiKey base prompt_id timeout_sec poll_interval
        hi1 x_api_key remote).2) ∧
    (∀ remote : Nat → CheckResult,
      (∀ k, remote k = CheckResult.history none) →
      comfy_result apiKey base prompt_id timeout_sec poll_interval hi1
          x_api_key remote =
        (.ok ⟨200, false, [], none⟩,
         Nat.ceil ((timeout_sec : ℚ) / poll_interval))) := by
  constructor
  · intro remote j hpre hj htime
    rw [comfy_result_unfold apiKey base b prompt_id timeout_sec
      poll_interval hi1 x_api_key remote hkey hbase hb]
    have hge := comfyLoop_count_ge remote poll_interval hi1
      (timeout_sec : ℚ) j 0 0 none
      (fun j' hj' => by simpa using hpre j' hj')
      (by simpa using htime)
    simpa using hge
  · intro remote hall
    have hns : ∀ j, isSuccess (remote j) = false := by
      intro j
      rw [hall j]
      simp [isSuccess]
    have hloop := comfyLoop_noSuccess remote poll_interval hi1
      (timeout_sec : ℚ) hns (Nat.ceil ((timeout_sec : ℚ) / poll_interval))
      0 0 none (by rw [sub_zero])
    have herr := lastErrUpto_none remote
      (Nat.ceil ((timeout_sec : ℚ) / poll_interval)) 0 none
      (fun j hj => by rw [hall (0 + j)]; rfl)
    rw [comfy_result_unfold apiKey base b prompt_id timeout_sec
      poll_interval hi1 x_api_key remote hkey hbase hb]
    rw [hloop, herr]

/-- Witness for C5: with a remote that always answers a history mapping
without the identifier, the call times out softly with no recorded error. -/
theorem claim_C5_witness :
    (∀ (remote : Nat → CheckResult) (j : Nat),
      (∀ j', j' ≤ j → isSuccess (remote j') = false) →
      remote j = CheckResult.history none →
      ((j : ℚ) + 1) * 1 < ((2 : Int) : ℚ) →
      j + 2 ≤ (comfy_result none (some "u") "id" 2 1 (by decide) none
        remote).2) ∧
    (∀ remote : Nat → CheckResult,
      (∀ k, remote k = CheckResult.history none) →
      comfy_result none (some "u") "id" 2 1 (by decide) none remote =
        (.ok ⟨200, false, [], none⟩, Nat.ceil (((2 : Int) : ℚ) / 1))) :=
  claim_C5_result_absent_id_not_ready none (some "u") none "u" "id" 2 1
    rfl rfl (by decide) (by decide) (by decide) (by decide) (by decide)

/-- With the key check passed and all parameters present, `/vm/wait` is the
wait loop with its result wrapped into the `{name, zone, status}` body. -/
theorem vm_wait_unfold (apiKey : Option String)
    (project zone inst target : String) (max_checks interval_sec : Nat)
    (x_api_key : Option String) (statusAt : Nat → String)
    (hkey : check_key apiKey x_api_key = .ok ())
    (hp : project ≠ "") (hz : zone ≠ "") (hin : inst ≠ "") :
    vm_wait apiKey project zone inst target max_checks interval_sec
        x_api_key statusAt =
      ((vmWaitLoop statusAt target 0 max_checks none).1.map
        (fun s => ⟨inst, zone, s⟩),
       (vmWaitLoop statusAt target 0 max_checks none).2) := by
  have hep : ensure_params project zone inst = .ok () := by
    simp [ensure_params, hp, hz, hin]
  unfold vm_wait
  rw [hkey, hep]

/-- C1 (spec-modelled): for a valid `/vm/wait` call, if some check within
the budget observes the target status then the call returns
`{name, zone, status}` with the target status; if every check misses the
target, the call fails with HTTP 408 carrying the last observed status,
which is not the target. -/
theorem claim_C1_vm_wait_contract (apiKey x_api_key : Option String)
    (project zone inst target : String) (max_checks interval_sec : Nat)
    (hkey : check_key apiKey x_api_key = .ok ())
    (hp : project ≠ "") (hz : zone ≠ "") (hin : inst ≠ "")
    (htarget : target = "RUNNING" ∨ target = "TERMINATED")
    (hmc1 : 1 ≤ max_checks) (hmc2 : max_checks ≤ 600)
    (his1 : 1 ≤ interval_sec) (his2 : interval_sec ≤ 60) :
    (∀ (statusAt : Nat → String) (m : Nat),
      m < max_checks →
      (∀ k, k < m → statusAt k ≠ target) →
      statusAt m = target →
      (vm_wait apiKey project zone inst target max_checks interval_sec
        x_api_key statusAt).1 = .ok ⟨inst, zone, target⟩) ∧
    (∀ statusAt : Nat → String,
      (∀ k, k < max_checks → statusAt k ≠ target) →
      (vm_wait apiKey project zone inst target max_checks interval_sec
        x_api_key statusAt).1 =
          .error ⟨408, .obj [("error", "timeout"),
                             ("status", statusAt (max_checks - 1))]⟩ ∧
      statusAt (max_checks - 1) ≠ target) := by
  constructor
  · intro statusAt m hm hpre hhit
    rw [vm_wait_unfold apiKey project zone inst target max_checks
      interval_sec x_api_key statusAt hkey hp hz hin]
    have hloop := vmWaitLoop_success statusAt target m 0 max_checks none hm
      (fun j hj => by simpa using hpre j hj)
      (by simpa using hhit)
    simp [hloop, Except.map]
  · intro statusAt hmiss
    have hloop := vmWaitLoop_timeout statusAt target max_checks 0 none hmc1
      (fun j hj => by simpa using hmiss j hj)
    constructor
    · rw [vm_wait_unfold apiKey project zone inst target max_checks
        interval_sec x_api_key statusAt hkey hp hz hin]
      rw [hloop]
      simp [Except.map]
    · exact hmiss (max_checks - 1) (by omega)

/-- Witness for C1: the status is STAGING on check 0 and RUNNING on check
1 within a budget of 3 checks, so the wait returns the RUNNING body. -/
theorem claim_C1_witness :
    (vm_wait none "p" "z" "vm1" "RUNNING" 3 1 none
      (fun n => if n = 0 then "STAGING" else "RUNNING")).1 =
      .ok ⟨"vm1", "z", "RUNNING"⟩ :=
  (claim_C1_vm_wait_contract none none "p" "z" "vm1" "RUNNING" 3 1
      rfl (by decide) (by decide) (by decide) (Or.inl rfl)
      (by decide) (by decide) (by decide) (by decide)).1
    (fun n => if n = 0 then "STAGING" else "RUNNING") 1 (by decide)
    (by
      intro k hk
      have hk0 : k = 0 := by omega
      subst hk0
      decide)
    (by decide)

/-- C6: with an API key configured and a missing or mismatched
`x-api-key` header, every endpoint other than the liveness probe returns
401 unauthorized with zero outbound network operations. -/
theorem claim_C6_unauthorized_short_circuits (key : String)
    (x : Option String) (hk : key ≠ "") (hx : x ≠ some key) :
    (∀ project zone inst reply,
      vm_start (some key) project zone inst x reply =
        (.error ⟨401, .str "unauthorized"⟩, 0)) ∧
    (∀ project zone inst reply,
      vm_stop (some key) project zone inst x reply =
        (.error ⟨401, .str "unauthorized"⟩, 0)) ∧
    (∀ project zone inst reply,
      vm_status (some key) project zone inst x reply =
        (.error ⟨401, .str "unauthorized"⟩, 0)) ∧
    (∀ project zone inst target max_checks interval_sec statusAt,
      vm_wait (some key) project zone inst target max_checks interval_sec
        x statusAt = (.error ⟨401, .str "unauthorized"⟩, 0)) ∧
    (∀ base remote,
      comfy_ping (some key) base x remote =
        (.error ⟨401, .str "unauthorized"⟩, 0)) ∧
    (∀ base payload remote,
      comfy_run (some key) base payload x remote =
        (.error ⟨401, .str "unauthorized"⟩, 0)) ∧
    (∀ base prompt_id timeout_sec poll_interval
        (hi : (0 : ℚ) < poll_interval) remote,
      comfy_result (some key) base prompt_id timeout_sec poll_interval hi
        x remote = (.error ⟨401, .str "unauthorized"⟩, 0)) ∧
    (∀ base filename guess remote,
      comfy_fetch (some key) base filename x guess remote =
        (.error ⟨401, .str "unauthorized"⟩, 0)) := by
  have herr : check_key (some key) x = .error ⟨401, .str "unauthorized"⟩ := by
    simp [check_key, hk, hx]
  refine ⟨?_, ?_, ?_, ?_, ?_, ?_, ?_, ?_⟩
  · intro project zone inst reply
    simp [vm_start, herr]
  · intro project zone inst reply
    simp [vm_stop, herr]
  · intro project zone inst reply
    simp [vm_status, herr]
  · intro project zone inst target max_checks interval_sec statusAt
    simp [vm_wait, herr]
  · intro base remote
    simp [comfy_ping, herr]
  · intro base payload remote
    simp [comfy_run, herr]
  · intro base prompt_id timeout_sec poll_interval hi remote
    simp [comfy_result, herr]
  · intro base filename guess remote
    simp [comfy_fetch, herr]

/-- Witness for C6: a configured key with no header presented yields 401
and no outbound call on `/vm/start`. -/
theorem claim_C6_witness :
    vm_start (some "secret") "p" "z" "vm1" none ⟨200, "", none⟩ =
      (.error ⟨401, .str "unauthorized"⟩, 0) :=
  (claim_C6_unauthorized_short_circuits "secret" none (by decide)
    (by decide)).1 "p" "z" "vm1" ⟨200, "", none⟩

/-- C7: when project, zone, and instance are all empty after defaults, the
three VM endpoints fail with 400 before any outbound network operation. -/
theorem claim_C7_missing_params_bad_request (apiKey x : Option String)
    (hkey : check_key apiKey x = .ok ()) :
    (∀ reply, vm_start apiKey "" "" "" x reply =
      (.error ⟨400, .str "PROJECT_ID/ZONE/INSTANCE not set"⟩, 0)) ∧
    (∀ reply, vm_stop apiKey "" "" "" x reply =
      (.error ⟨400, .str "PROJECT_ID/ZONE/INSTANCE not set"⟩, 0)) ∧
    (∀ reply, vm_status apiKey "" "" "" x reply =
      (.error ⟨400, .str "PROJECT_ID/ZONE/INSTANCE not set"⟩, 0)) := by
  have hep : ensure_params "" "" "" =
      .error ⟨400, .str "PROJECT_ID/ZONE/INSTANCE not set"⟩ := by
    simp [ensure_params]
  refine ⟨?_, ?_, ?_⟩
  · intro reply
    simp [vm_start, hkey, hep]
  · intro reply
    simp [vm_stop, hkey, hep]
  · intro reply
    simp [vm_status, hkey, hep]

/-- Witness for C7: with no key configured and all identifiers empty,
`/vm/start` returns 400 without an outbound call. -/
theorem claim_C7_witness :
    vm_start none "" "" "" none ⟨200, "", none⟩ =
      (.error ⟨400, .str "PROJECT_ID/ZONE/INSTANCE not set"⟩, 0) :=
  (claim_C7_missing_params_bad_request none none rfl).1 ⟨200, "", none⟩

/-- C8 counterexample: a successful remote reply whose `status` field is
`SUSPENDED` (a value outside the claimed enumerated set) is passed through
verbatim by `/vm/status`, so the returned status is neither in the
enumerated set nor the literal `UNKNOWN`. -/
theorem claim_C8_counterexample :
    (vm_status none "p" "z" "vm1" none
      ⟨200, "body", some [("status", "SUSPENDED")]⟩).1 =
        .ok ⟨"vm1", "z", "SUSPENDED"⟩ ∧
    "SUSPENDED" ∉ ["PROVISIONING", "STAGING", "RUNNING", "STOPPING",
      "TERMINATED", "UNKNOWN"] := by
  constructor
  · rfl
  · decide

/-- C8 amended: on every successful remote reply, `/vm/status` returns
`{name, zone, status}` where `status` is the reply's `status` field
verbatim when present and `UNKNOWN` when absent; consequently the status
lies in the enumerated set or is `UNKNOWN` exactly when the remote's
reported status (if any) does. -/
theorem claim_C8_status_passthrough (apiKey x : Option String)
    (project zone inst : String) (reply : RemoteReply)
    (j : List (String × String))
    (hkey : check_key apiKey x = .ok ())
    (hp : project ≠ "") (hz : zone ≠ "") (hin : inst ≠ "")
    (hok : gce_req reply = .ok j) :
    (vm_status apiKey project zone inst x reply).1 =
      .ok ⟨inst, zone, (j.lookup "status").getD "UNKNOWN"⟩ ∧
    ((j.lookup "status" = none ∨
      ∃ s, j.lookup "status" = some s ∧
        s ∈ ["PROVISIONING", "STAGING", "RUNNING", "STOPPING",
             "TERMINATED"]) →
      (j.lookup "status").getD "UNKNOWN" ∈
        ["UNKNOWN", "PROVISIONING", "STAGING", "RUNNING", "STOPPING",
         "TERMINATED"]) := by
  constructor
  · have hep : ensure_params project zone inst = .ok () := by
      simp [ensure_params, hp, hz, hin]
    simp [vm_status, hkey, hep, hok]
  · rintro (hnone | ⟨s, hs, hmem⟩)
    · rw [hnone]
      simp
    · rw [hs]
      simpa using List.mem_cons_of_mem "UNKNOWN" hmem

/-- Witness for the amended C8: a remote reply reporting RUNNING comes
back verbatim and lies in the enumerated set. -/
theorem claim_C8_witness :
    (vm_status none "p" "z" "vm1" none
      ⟨200, "body", some [("status", "RUNNING")]⟩).1 =
        .ok ⟨"vm1", "z",
          (([("status", "RUNNING")].lookup "status").getD "UNKNOWN")⟩ ∧
    (([("status", "RUNNING")].lookup "status" = none ∨
      ∃ s, [("status", "RUNNING")].lookup "status" = some s ∧
        s ∈ ["PROVISIONING", "STAGING", "RUNNING", "STOPPING",
             "TERMINATED"]) →
      (([("status", "RUNNING")].lookup "status").getD "UNKNOWN") ∈
        ["UNKNOWN", "PROVISIONING", "STAGING", "RUNNING", "STOPPING",
         "TERMINATED"]) :=
  claim_C8_status_passthrough none none "p" "z" "vm1"
    ⟨200, "body", some [("status", "RUNNING")]⟩
    [("status", "RUNNING")] rfl (by decide) (by decide) (by decide)
    rfl

/-- C10: with no API key configured (unset or empty), `check_key` accepts
every header value, the VM start and stop endpoints behave identically for
every header, and `check_key` rejects a call exactly when a non-empty key
is configured and the presented header differs from it (and then always
with 401 unauthorized). -/
theorem claim_C10_open_when_no_key :
    (∀ x, check_key none x = .ok ()) ∧
    (∀ x, check_key (some "") x = .ok ()) ∧
    (∀ a x : Option String,
      check_key a x ≠ .ok () ↔
        ∃ k, a = some k ∧ k ≠ "" ∧ x ≠ some k) ∧
    (∀ (a x : Option String) (e : HErr),
      check_key a x = .error e → e = ⟨401, .str "unauthorized"⟩) ∧
    (∀ project zone inst (x y : Option String) reply,
      vm_start none project zone inst x reply =
        vm_start none project zone inst y reply) ∧
    (∀ project zone inst (x y : Option String) reply,
      vm_stop none project zone inst x reply =
        vm_stop none project zone inst y reply) := by
  refine ⟨?_, ?_, ?_, ?_, ?_, ?_⟩
  · intro x
    rfl
  · intro x
    simp [check_key]
  · intro a x
    cases a with
    | none => simp [check_key]
    | some k =>
        by_cases hc : k ≠ "" ∧ x ≠ some k
        · simp only [check_key, if_pos hc]
          constructor
          · intro _
            exact ⟨k, rfl, hc.1, hc.2⟩
          · intro _ h
            exact Except.noConfusion h
        · simp only [check_key, if_neg hc]
          constructor
          · intro h
            exact absurd rfl h
          · rintro ⟨k', hk', hne, hx⟩ _
            have hkk : k' = k := by
              injection hk' with h
              exact h.symm
            subst hkk
            exact hc ⟨hne, hx⟩
  · intro a x e h
    cases a with
    | none => exact Except.noConfusion h
    | some k =>
        by_cases hc : k ≠ "" ∧ x ≠ some k
        · rw [check_key, if_pos hc] at h
          injection h with h1
          exact h1.symm
        · rw [check_key, if_neg hc] at h
          exact Except.noConfusion h
  · intro project zone inst x y reply
    rfl
  · intro project zone inst x y reply
    rfl

/-- Witness for C10: with no key configured, an arbitrary header is
accepted. -/
theorem claim_C10_witness :
    check_key none (some "whatever") = .ok () :=
  claim_C10_open_when_no_key.1 (some "whatever")
